import Mathlib

/-!
# Verification of the nvblox sparse block-layer core (`nvblox/core/layer.h`)

This file gives a shallow embedding of the layer data model of
`src/nvblox/include/nvblox/core/layer.h` and proves properties of it.

The repository ships only the header.  Member functions whose bodies are
written inline in the header (`clear`, `block_size`, `numAllocatedBlocks`,
`memory_type`, `voxel_size`, the constructors) are translated from those
bodies.  Member functions that the header only declares (their bodies live
in `nvblox/core/impl/layer_impl.h`, which is not part of the sources) are
modelled from the specification; each such definition carries a doc comment
starting with `Modelled from the spec:`.

Block payloads are owned through shared-ownership handles
(`BlockType::Ptr`, a `std::shared_ptr`).  To make sharing and deep-copy
isolation expressible, payloads live in an explicit heap (`Heap`): a handle
is a natural-number identifier into the heap, and layers store
(coordinate, handle) association lists, mirroring
`Index3DHashMapType<BlockType::Ptr>`.
-/

set_option autoImplicit false

universe u v

/-! ## Association-list primitives (the embedding of hash-map operations) -/

/-- Lookup of the first value bound to a key in an association list. -/
def lookupKey {α : Type u} {β : Type v} [DecidableEq α] : List (α × β) → α → Option β
  | [], _ => none
  | (k, v) :: rest, a => if k = a then some v else lookupKey rest a

/-- Remove every binding of a key from an association list
(`std::unordered_map::erase`). -/
def eraseKey {α : Type u} {β : Type v} [DecidableEq α] : List (α × β) → α → List (α × β)
  | [], _ => []
  | (k, v) :: rest, a => if k = a then eraseKey rest a else (k, v) :: eraseKey rest a

/-- Membership test for a key in an association list. -/
def containsKey {α : Type u} {β : Type v} [DecidableEq α] (l : List (α × β)) (a : α) : Bool :=
  (lookupKey l a).isSome

@[simp] theorem lookupKey_nil {α : Type u} {β : Type v} [DecidableEq α] (a : α) :
    lookupKey ([] : List (α × β)) a = none := rfl

@[simp] theorem lookupKey_cons {α : Type u} {β : Type v} [DecidableEq α]
    (k : α) (v : β) (rest : List (α × β)) (a : α) :
    lookupKey ((k, v) :: rest) a = if k = a then some v else lookupKey rest a := rfl

@[simp] theorem eraseKey_nil {α : Type u} {β : Type v} [DecidableEq α] (a : α) :
    eraseKey ([] : List (α × β)) a = [] := rfl

theorem lookupKey_eraseKey {α : Type u} {β : Type v} [DecidableEq α]
    (l : List (α × β)) (a b : α) :
    lookupKey (eraseKey l a) b = if a = b then none else lookupKey l b := by
  induction l with
  | nil => simp [eraseKey]
  | cons kv rest ih =>
    obtain ⟨k, v⟩ := kv
    by_cases hka : k = a
    · subst hka
      by_cases hab : k = b
      · subst hab
        simp [eraseKey, ih]
      · simp [eraseKey, ih, hab]
    · by_cases hkb : k = b
      · subst hkb
        have hab : ¬ a = k := fun h => hka h.symm
        simp [eraseKey, hka, hab]
      · simp [eraseKey, hka, hkb, ih]

theorem lookupKey_map_entry {α : Type u} {β : Type v} [DecidableEq α]
    (l : List (α × β)) (a b : α) (w : β) (hne : a ≠ b) :
    lookupKey (l.map fun kv => if kv.1 = a then (a, w) else kv) b = lookupKey l b := by
  induction l with
  | nil => simp
  | cons kv rest ih =>
    obtain ⟨k, v⟩ := kv
    by_cases hka : k = a
    · subst hka
      simp [hne, ih]
    · simp [hka, ih]

/-! ## Basic types of the data model -/

/-- Integer block coordinate on the storage lattice (`Index3D`, an `Eigen`
triple of signed integers). -/
structure Index3D where
  x : ℤ
  y : ℤ
  z : ℤ
deriving DecidableEq, Repr

/-- Modelled from the spec: the residency enumeration is supplied externally
(`nvblox/core/types.h`, not in the sources); the spec fixes a closed set of
kinds: host, device, unified. -/
inductive MemoryType where
  | kDevice : MemoryType
  | kUnified : MemoryType
  | kHost : MemoryType
deriving DecidableEq, Repr

/-- A continuous 3D position (`Vector3f`); components are embedded as exact
rationals so that the floor arithmetic of the index mapping is exact. -/
structure Vec3 where
  x : ℚ
  y : ℚ
  z : ℚ
deriving DecidableEq, Repr

/-- Modelled from the spec: `positionToBlockCoordinate` (declared in
`nvblox/core/indexing.h`, not in the sources) maps each axis by
floor-division of the position component by the block edge length. -/
def positionToBlockCoordinate (p : Vec3) (block_edge_length : ℚ) : Index3D :=
  ⟨⌊p.x / block_edge_length⌋, ⌊p.y / block_edge_length⌋, ⌊p.z / block_edge_length⌋⟩

/-! ## The payload heap: shared-ownership handles -/

/-- The payload heap.  A `BlockType::Ptr` is embedded as a natural-number
handle into the heap; `next` is the next fresh handle. -/
structure Heap (β : Type u) where
  entries : List (ℕ × β)
  next : ℕ
deriving Repr, DecidableEq

/-- Dereference a handle. -/
def Heap.get {β : Type u} (w : Heap β) (h : ℕ) : Option β :=
  lookupKey w.entries h

/-- Allocate a fresh payload; returns the new heap and the fresh handle. -/
def Heap.alloc {β : Type u} (w : Heap β) (b : β) : Heap β × ℕ :=
  ({ entries := (w.next, b) :: w.entries, next := w.next + 1 }, w.next)

/-- Overwrite the payload a handle refers to (mutation through a shared
handle: visible to every holder of that handle). -/
def Heap.write {β : Type u} (w : Heap β) (h : ℕ) (b : β) : Heap β :=
  { w with entries := w.entries.map fun kv => if kv.1 = h then (h, b) else kv }

/-- The empty heap. -/
def Heap.empty {β : Type u} : Heap β := { entries := [], next := 0 }

/-- Well-formedness: every live handle is below the fresh-handle counter. -/
def Heap.wf {β : Type u} (w : Heap β) : Bool :=
  w.entries.all fun kv => kv.1 < w.next

theorem Heap.get_write_ne {β : Type u} (w : Heap β) (h h' : ℕ) (b : β) (hne : h' ≠ h) :
    (w.write h' b).get h = w.get h := by
  unfold Heap.write Heap.get
  exact lookupKey_map_entry w.entries h' h b hne

theorem Heap.get_alloc_old {β : Type u} (w : Heap β) (b : β) (h : ℕ) (hlt : h < w.next) :
    (w.alloc b).1.get h = w.get h := by
  unfold Heap.alloc Heap.get
  simp [lookupKey, Nat.ne_of_gt hlt]

theorem Heap.get_alloc_new {β : Type u} (w : Heap β) (b : β) :
    (w.alloc b).1.get (w.alloc b).2 = some b := by
  unfold Heap.alloc Heap.get
  simp [lookupKey]

theorem Heap.wf_alloc {β : Type u} (w : Heap β) (b : β) (hwf : w.wf = true) :
    (w.alloc b).1.wf = true := by
  unfold Heap.alloc Heap.wf at *
  simp only [List.all_eq_true, List.mem_cons] at *
  intro kv hkv
  rcases hkv with h | h
  · subst h; simp
  · have := hwf kv h
    simp only [decide_eq_true_eq] at this ⊢
    omega

/-! ## BlockLayer: the embedding of `BlockLayer<BlockType>` -/

/-- The state of a `BlockLayer<BlockType>` (layer.h, lines 108-124):
`block_size_`, `memory_type_`, the CPU hash `blocks_` (Index3D ->
`BlockType::Ptr`, embedded as a (coordinate, handle) association list),
the cache flag `gpu_layer_view_up_to_date_`, and the lazily allocated
cached view `gpu_layer_view_`.  The view mirrors (coordinate, payload
location) pairs.  `rebuild_count` is a ghost field counting Device View
rebuilds (the spec's observable rebuild counter); no code branches on it. -/
structure BlockLayer (β : Type u) where
  block_size : ℚ
  memory_type : MemoryType
  blocks : List (Index3D × ℕ)
  gpu_layer_view_up_to_date : Bool
  gpu_layer_view : Option (List (Index3D × ℕ))
  rebuild_count : ℕ
deriving Repr, DecidableEq

/-- The constructor `BlockLayer(float block_size, MemoryType memory_type)`
(layer.h, lines 58-61): stores the arguments and initializes
`gpu_layer_view_up_to_date_` to `false`; the store starts empty and the
cached view is not yet allocated. -/
def mkBlockLayer {β : Type u} (block_size : ℚ) (memory_type : MemoryType) : BlockLayer β :=
  { block_size := block_size
    memory_type := memory_type
    blocks := []
    gpu_layer_view_up_to_date := false
    gpu_layer_view := none
    rebuild_count := 0 }

/-- `numAllocatedBlocks() { return blocks_.size(); }` (layer.h, line 91). -/
def BlockLayer.numAllocatedBlocks {β : Type u} (s : BlockLayer β) : ℕ :=
  s.blocks.length

/-- `void clear() { blocks_.clear(); }` (layer.h, line 94).  The inline body
clears only the CPU hash; in particular it does NOT touch
`gpu_layer_view_up_to_date_`. -/
def BlockLayer.clear {β : Type u} (s : BlockLayer β) : BlockLayer β :=
  { s with blocks := [] }

/-- Modelled from the spec: the body of `getBlockAtIndex` is declared at
layer.h line 74 but defined in `impl/layer_impl.h`, which is not in the
sources.  Per the spec: O(1) lookup returning a shared handle or null. -/
def BlockLayer.getBlockAtIndex {β : Type u} (s : BlockLayer β) (index : Index3D) : Option ℕ :=
  lookupKey s.blocks index

/-- `isBlockAllocated` (declared layer.h line 88; body not in the sources).
Modelled from the spec: membership test, no side effects. -/
def BlockLayer.isBlockAllocated {β : Type u} (s : BlockLayer β) (index : Index3D) : Bool :=
  containsKey s.blocks index

/-- Modelled from the spec: the body of `allocateBlockAtIndex` (declared
layer.h line 76) is in `impl/layer_impl.h`, not in the sources.  Per the
spec: if the coordinate is present, return the existing handle unchanged;
if absent, construct a new default-initialized block, insert it, mark the
Device View stale, and return the new handle. -/
def BlockLayer.allocateBlockAtIndex {β : Type u} [Inhabited β]
    (w : Heap β) (s : BlockLayer β) (index : Index3D) : Heap β × BlockLayer β × ℕ :=
  match lookupKey s.blocks index with
  | some h => (w, s, h)
  | none =>
    let wh := w.alloc default
    (wh.1,
     { s with
       blocks := (index, wh.2) :: s.blocks
       gpu_layer_view_up_to_date := false },
     wh.2)

/-- Modelled from the spec: `getBlockAtPosition` (declared layer.h line 79;
body not in the sources) composes the Spatial Index Mapping with
`getBlockAtIndex`. -/
def BlockLayer.getBlockAtPosition {β : Type u} (s : BlockLayer β) (position : Vec3) :
    Option ℕ :=
  s.getBlockAtIndex (positionToBlockCoordinate position s.block_size)

/-- Modelled from the spec: `allocateBlockAtPosition` (declared layer.h
line 82; body not in the sources) composes the Spatial Index Mapping with
`allocateBlockAtIndex`. -/
def BlockLayer.allocateBlockAtPosition {β : Type u} [Inhabited β]
    (w : Heap β) (s : BlockLayer β) (position : Vec3) : Heap β × BlockLayer β × ℕ :=
  s.allocateBlockAtIndex w (positionToBlockCoordinate position s.block_size)

/-- Modelled from the spec: `clearBlocks` (declared layer.h line 99; body
not in the sources).  Per the header comment (lines 96-98) and the spec:
for each coordinate in the input, remove it if present and silently
continue if absent; mark the Device View stale if at least one removal
occurred. -/
def BlockLayer.clearBlocks {β : Type u} (s : BlockLayer β) (indices : List Index3D) :
    BlockLayer β :=
  { s with
    blocks := indices.foldl (fun bs i => eraseKey bs i) s.blocks
    gpu_layer_view_up_to_date :=
      if indices.any fun i => containsKey s.blocks i then false
      else s.gpu_layer_view_up_to_date }

/-- `memory_type() { return memory_type_; }` (layer.h, line 101). -/
def BlockLayer.memoryType {β : Type u} (s : BlockLayer β) : MemoryType :=
  s.memory_type

/-- Modelled from the spec: `getGpuLayerView` (declared layer.h line 106;
body not in the sources).  Per the header comments (lines 115-124) and the
spec: if the cache is stale (or not yet allocated), rebuild it by copying
every (coordinate, payload-location) pair from the current Block Hash
Store, mark up-to-date, and return it; otherwise return the cached view
directly without rebuilding. -/
def BlockLayer.getGpuLayerView {β : Type u} (s : BlockLayer β) :
    BlockLayer β × List (Index3D × ℕ) :=
  match s.gpu_layer_view_up_to_date, s.gpu_layer_view with
  | true, some v => (s, v)
  | _, _ =>
    ({ s with
       gpu_layer_view := some s.blocks
       gpu_layer_view_up_to_date := true
       rebuild_count := s.rebuild_count + 1 },
     s.blocks)

/-- Deep-copy of the stored blocks: duplicate every payload into a fresh
heap cell, keeping coordinates; part of the modelled deep-copy operations. -/
def deepCopyBlocks {β : Type u} [Inhabited β] (w : Heap β) :
    List (Index3D × ℕ) → Heap β × List (Index3D × ℕ)
  | [] => (w, [])
  | (idx, h) :: rest =>
    let payload := (w.get h).getD default
    let wh := w.alloc payload
    let rec' := deepCopyBlocks wh.1 rest
    (rec'.1, (idx, wh.2) :: rec'.2)

/-- Modelled from the spec: the copy constructor `BlockLayer(const
BlockLayer&)` (declared layer.h line 65; body not in the sources) copies
edge length and residency and performs a full independent duplication of
every stored block's payload; the copy's Device View Cache starts stale. -/
def BlockLayer.deepCopy {β : Type u} [Inhabited β] (w : Heap β) (s : BlockLayer β) :
    Heap β × BlockLayer β :=
  let wb := deepCopyBlocks w s.blocks
  (wb.1,
   { block_size := s.block_size
     memory_type := s.memory_type
     blocks := wb.2
     gpu_layer_view_up_to_date := false
     gpu_layer_view := none
     rebuild_count := 0 })

/-- Modelled from the spec: copy-assignment `operator=` (declared layer.h
line 67; body not in the sources; the VoxelBlockLayer declaration carries
the comment "Assignment retains the current layer's memory type", layer.h
line 151).  The target's block contents are replaced by deep copies of the
source's, migrated to the target's own pre-existing residency; the
target's Device View Cache becomes stale. -/
def BlockLayer.copyAssign {β : Type u} [Inhabited β]
    (w : Heap β) (target source : BlockLayer β) : Heap β × BlockLayer β :=
  let wb := deepCopyBlocks w source.blocks
  (wb.1,
   { block_size := source.block_size
     memory_type := target.memory_type
     blocks := wb.2
     gpu_layer_view_up_to_date := false
     gpu_layer_view := none
     rebuild_count := target.rebuild_count })

/-! ## VoxelBlockLayer: the embedding of `VoxelBlockLayer<VoxelType>` -/

/-- Modelled from the spec: `VoxelBlock<VoxelType>::kVoxelsPerSide`
(`nvblox/core/blox.h`, not in the sources) is a fixed constant shared
across the whole system's block payload type; nvblox blocks are 8 voxels
per side. -/
def kVoxelsPerSide : ℕ := 8

/-- A voxel block payload: a dense default-initialized voxel grid, embedded
as a partial map from local voxel index to voxel value (absent entries hold
the default voxel value). -/
abbrev VoxelBlock (V : Type u) : Type u := List (Index3D × V)

/-- Read one voxel of a block by local index. -/
def VoxelBlock.voxel {V : Type u} [Inhabited V] (blk : VoxelBlock V) (local_index : Index3D) : V :=
  (lookupKey (blk : List (Index3D × V)) local_index).getD default

/-- The state of a `VoxelBlockLayer<VoxelType>` (layer.h, lines 127-194):
a `BlockLayer<VoxelBlock<VoxelType>>` plus `voxel_size_`. -/
structure VoxelBlockLayer (V : Type u) where
  voxel_size : ℚ
  toBlockLayer : BlockLayer (VoxelBlock V)
deriving Repr, DecidableEq

/-- The constructor `VoxelBlockLayer(float voxel_size, MemoryType
memory_type)` (layer.h, lines 141-144): the base block edge length is
`VoxelBlockType::kVoxelsPerSide * voxel_size`, and `voxel_size_` stores
the argument. -/
def mkVoxelBlockLayer {V : Type u} (voxel_size : ℚ) (memory_type : MemoryType) :
    VoxelBlockLayer V :=
  { voxel_size := voxel_size
    toBlockLayer := mkBlockLayer ((kVoxelsPerSide : ℚ) * voxel_size) memory_type }

/-- `clear()` of a voxel layer is the inherited `BlockLayer::clear`
(layer.h, line 94): it touches only the base `blocks_` store. -/
def VoxelBlockLayer.clear {V : Type u} (s : VoxelBlockLayer V) : VoxelBlockLayer V :=
  { s with toBlockLayer := s.toBlockLayer.clear }

/-- `voxel_size() { return voxel_size_; }` (layer.h, line 190). -/
def VoxelBlockLayer.voxelSize {V : Type u} (s : VoxelBlockLayer V) : ℚ :=
  s.voxel_size

/-- Modelled from the spec: the local voxel offset of a position within its
block is the position's remainder after block-coordinate floor-division,
scaled to voxel-grid indices. -/
def localVoxelIndex (p : Vec3) (block_index : Index3D) (block_size voxel_size : ℚ) : Index3D :=
  ⟨⌊(p.x - block_index.x * block_size) / voxel_size⌋,
   ⌊(p.y - block_index.y * block_size) / voxel_size⌋,
   ⌊(p.z - block_index.z * block_size) / voxel_size⌋⟩

/-- Modelled from the spec: `getVoxel` (declared layer.h line 187; body not
in the sources): map the position to a block coordinate; if the block is
not allocated return (default voxel, false); otherwise copy out the single
voxel at the local offset and return (copy, true). -/
def VoxelBlockLayer.getVoxel {V : Type u} [Inhabited V]
    (s : VoxelBlockLayer V) (w : Heap (VoxelBlock V)) (p_L : Vec3) : V × Bool :=
  let block_index := positionToBlockCoordinate p_L s.toBlockLayer.block_size
  match lookupKey s.toBlockLayer.blocks block_index with
  | none => (default, false)
  | some h =>
    let blk := (w.get h).getD default
    (blk.voxel (localVoxelIndex p_L block_index s.toBlockLayer.block_size s.voxel_size), true)

/-- Modelled from the spec: `getVoxels` (declared layer.h lines 171-173;
body not in the sources): size both output sequences to the input count
and fill them per position with the single-voxel copy-out of `getVoxel`. -/
def VoxelBlockLayer.getVoxels {V : Type u} [Inhabited V]
    (s : VoxelBlockLayer V) (w : Heap (VoxelBlock V)) (positions_L : List Vec3) :
    List V × List Bool :=
  (positions_L.map fun p => (s.getVoxel w p).1,
   positions_L.map fun p => (s.getVoxel w p).2)

/-! ## Properties of the Spatial Index Mapping -/

theorem floor_div_mem (q e : ℚ) (he : 0 < e) :
    (⌊q / e⌋ : ℚ) * e ≤ q ∧ q < ((⌊q / e⌋ : ℚ) + 1) * e := by
  constructor
  · calc (⌊q / e⌋ : ℚ) * e ≤ (q / e) * e :=
          mul_le_mul_of_nonneg_right (Int.floor_le _) (le_of_lt he)
      _ = q := div_mul_cancel₀ q (ne_of_gt he)
  · calc q = (q / e) * e := (div_mul_cancel₀ q (ne_of_gt he)).symm
      _ < ((⌊q / e⌋ : ℚ) + 1) * e := mul_lt_mul_of_pos_right (Int.lt_floor_add_one _) he

theorem floor_div_unique (q e : ℚ) (c : ℤ) (he : 0 < e)
    (h1 : (c : ℚ) * e ≤ q) (h2 : q < ((c : ℚ) + 1) * e) : ⌊q / e⌋ = c := by
  have hle : (c : ℚ) ≤ q / e := (le_div_iff₀ he).mpr h1
  have hlt : q / e < (c : ℚ) + 1 := (div_lt_iff₀ he).mpr h2
  exact Int.floor_eq_iff.mpr ⟨hle, by exact_mod_cast hlt⟩

/-- Claim C4: `positionToBlockCoordinate` computes, for every position and
positive block edge length, the floor-division of each position component
by the edge length: the resulting coordinate is the unique one whose
half-open volume `[c*e, (c+1)*e)` contains the position on every axis (so
the same position always maps to the same coordinate), and on the concrete
input `(-0.1, -0.1, -0.1)` with edge length `1.0` it yields `(-1, -1, -1)`
(floor), not `(0, 0, 0)` (truncation toward zero). -/
theorem positionToBlockCoordinate_floor (p : Vec3) (e : ℚ) (he : 0 < e) :
    (((positionToBlockCoordinate p e).x : ℚ) * e ≤ p.x ∧
      p.x < (((positionToBlockCoordinate p e).x : ℚ) + 1) * e) ∧
    (((positionToBlockCoordinate p e).y : ℚ) * e ≤ p.y ∧
      p.y < (((positionToBlockCoordinate p e).y : ℚ) + 1) * e) ∧
    (((positionToBlockCoordinate p e).z : ℚ) * e ≤ p.z ∧
      p.z < (((positionToBlockCoordinate p e).z : ℚ) + 1) * e) ∧
    (∀ c : Index3D,
      ((c.x : ℚ) * e ≤ p.x ∧ p.x < ((c.x : ℚ) + 1) * e) →
      ((c.y : ℚ) * e ≤ p.y ∧ p.y < ((c.y : ℚ) + 1) * e) →
      ((c.z : ℚ) * e ≤ p.z ∧ p.z < ((c.z : ℚ) + 1) * e) →
      c = positionToBlockCoordinate p e) ∧
    positionToBlockCoordinate ⟨-1/10, -1/10, -1/10⟩ 1 = ⟨-1, -1, -1⟩ ∧
    positionToBlockCoordinate ⟨-1/10, -1/10, -1/10⟩ 1 ≠ ⟨0, 0, 0⟩ := by
  refine ⟨floor_div_mem p.x e he, floor_div_mem p.y e he, floor_div_mem p.z e he,
          ?_, by norm_num [positionToBlockCoordinate, Index3D.mk.injEq],
          by norm_num [positionToBlockCoordinate, Index3D.mk.injEq]⟩
  intro c hx hy hz
  obtain ⟨cx, cy, cz⟩ := c
  have ex := floor_div_unique p.x e cx he hx.1 hx.2
  have ey := floor_div_unique p.y e cy he hy.1 hy.2
  have ez := floor_div_unique p.z e cz he hz.1 hz.2
  simp [positionToBlockCoordinate, Index3D.mk.injEq]
  exact ⟨ex.symm, ey.symm, ez.symm⟩

/-- Witness for claim C4 at the concrete input of the spec. -/
theorem positionToBlockCoordinate_floor_witness :
    positionToBlockCoordinate ⟨-1/10, -1/10, -1/10⟩ 1 = ⟨-1, -1, -1⟩ ∧
    positionToBlockCoordinate ⟨-1/10, -1/10, -1/10⟩ 1 ≠ ⟨0, 0, 0⟩ :=
  ⟨(positionToBlockCoordinate_floor ⟨-1/10, -1/10, -1/10⟩ 1 (by norm_num)).2.2.2.2.1,
   (positionToBlockCoordinate_floor ⟨-1/10, -1/10, -1/10⟩ 1 (by norm_num)).2.2.2.2.2⟩

/-! ## Helper lemmas about the store operations -/

theorem allocateBlockAtIndex_present {β : Type u} [Inhabited β]
    (w : Heap β) (s : BlockLayer β) (c : Index3D) (h : ℕ)
    (hl : lookupKey s.blocks c = some h) :
    s.allocateBlockAtIndex w c = (w, s, h) := by
  unfold BlockLayer.allocateBlockAtIndex
  simp [hl]

theorem allocateBlockAtIndex_lookup {β : Type u} [Inhabited β]
    (w : Heap β) (s : BlockLayer β) (c : Index3D) :
    lookupKey (s.allocateBlockAtIndex w c).2.1.blocks c
      = some (s.allocateBlockAtIndex w c).2.2 := by
  unfold BlockLayer.allocateBlockAtIndex
  cases hl : lookupKey s.blocks c with
  | some h => simp [hl]
  | none => simp [hl]

theorem allocateBlockAtIndex_preserves {β : Type u} [Inhabited β]
    (w : Heap β) (s : BlockLayer β) (c : Index3D) :
    (s.allocateBlockAtIndex w c).2.1.block_size = s.block_size ∧
    (s.allocateBlockAtIndex w c).2.1.memory_type = s.memory_type := by
  unfold BlockLayer.allocateBlockAtIndex
  cases hl : lookupKey s.blocks c with
  | some h => simp [hl]
  | none => simp [hl]

theorem eraseKey_of_absent {α : Type u} {β : Type v} [DecidableEq α] :
    ∀ (l : List (α × β)) (a : α), containsKey l a = false → eraseKey l a = l
  | [], _, _ => rfl
  | (k, v) :: rest, a, h => by
    simp only [containsKey, lookupKey_cons] at h
    by_cases hka : k = a
    · simp [hka] at h
    · simp only [eraseKey, if_neg hka, List.cons.injEq, true_and]
      exact eraseKey_of_absent rest a (by simpa [hka, containsKey] using h)

theorem foldl_eraseKey_of_absent {α : Type u} {β : Type v} [DecidableEq α] :
    ∀ (indices : List α) (bs : List (α × β)),
      (∀ i ∈ indices, containsKey bs i = false) →
      indices.foldl (fun l a => eraseKey l a) bs = bs
  | [], _, _ => rfl
  | j :: rest, bs, h => by
    simp only [List.foldl_cons]
    rw [eraseKey_of_absent bs j (h j (by simp))]
    exact foldl_eraseKey_of_absent rest bs fun i hi => h i (by simp [hi])

theorem containsKey_foldl_eraseKey {α : Type u} {β : Type v} [DecidableEq α] :
    ∀ (indices : List α) (bs : List (α × β)) (i : α),
      containsKey (indices.foldl (fun l a => eraseKey l a) bs) i =
        if i ∈ indices then false else containsKey bs i
  | [], bs, i => by simp
  | j :: rest, bs, i => by
    simp only [List.foldl_cons]
    rw [containsKey_foldl_eraseKey rest (eraseKey bs j) i]
    by_cases hij : i ∈ rest
    · simp [hij]
    · by_cases hji : j = i
      · subst hji
        simp [hij, containsKey, lookupKey_eraseKey]
      · have hij2 : ¬ i = j := fun h => hji h.symm
        have : ¬ i ∈ (j :: rest) := by
          simp [List.mem_cons, hij, hij2]
        simp [hij, this, containsKey, lookupKey_eraseKey, hji]

/-! ## Demonstration states used by the witnesses -/

/-- A freshly constructed host layer over ℕ payloads. -/
def demoLayer : BlockLayer ℕ := mkBlockLayer 1 MemoryType.kHost

/-- The result of allocating block (0,0,0) in the fresh layer. -/
def demoAllocResult : Heap ℕ × BlockLayer ℕ × ℕ :=
  demoLayer.allocateBlockAtIndex Heap.empty ⟨0, 0, 0⟩

/-! ## Claim theorems over the BlockLayer -/

/-- Claim C2: `allocateBlockAtIndex` is idempotent: if the coordinate is
present, the call returns the existing handle with heap and layer
unchanged (so the block content is not overwritten); calling it twice in
a row yields the very same (heap, layer, handle) triple on the second
call (same payload, no fresh duplicate); if the coordinate is absent, the
call returns a fresh handle to a default-initialized payload, inserts the
coordinate, and marks the Device View stale. -/
theorem allocateBlockAtIndex_idempotent {β : Type u} [Inhabited β]
    (w : Heap β) (s : BlockLayer β) (c : Index3D) :
    (∀ h : ℕ, s.getBlockAtIndex c = some h → s.allocateBlockAtIndex w c = (w, s, h)) ∧
    ((s.allocateBlockAtIndex w c).2.1.allocateBlockAtIndex (s.allocateBlockAtIndex w c).1 c
        = s.allocateBlockAtIndex w c) ∧
    (s.getBlockAtIndex c = none →
        (s.allocateBlockAtIndex w c).2.2 = w.next ∧
        (s.allocateBlockAtIndex w c).1.get (s.allocateBlockAtIndex w c).2.2 = some default ∧
        (s.allocateBlockAtIndex w c).2.1.blocks = (c, w.next) :: s.blocks ∧
        (s.allocateBlockAtIndex w c).2.1.gpu_layer_view_up_to_date = false) := by
  refine ⟨?_, ?_, ?_⟩
  · intro h hl
    exact allocateBlockAtIndex_present w s c h hl
  · have := allocateBlockAtIndex_present (s.allocateBlockAtIndex w c).1
      (s.allocateBlockAtIndex w c).2.1 c (s.allocateBlockAtIndex w c).2.2
      (allocateBlockAtIndex_lookup w s c)
    simpa using this
  · intro hl
    unfold BlockLayer.getBlockAtIndex at hl
    unfold BlockLayer.allocateBlockAtIndex
    simp [hl, Heap.alloc, Heap.get, lookupKey]

/-- Witness for claim C2 on the concrete layer: (0,0,0) is absent in the
fresh layer, gets handle 0 with a default payload and a stale view, and a
second allocation of (0,0,0) changes nothing. -/
theorem allocateBlockAtIndex_idempotent_witness :
    (demoAllocResult.2.1.allocateBlockAtIndex demoAllocResult.1 ⟨0, 0, 0⟩
        = demoAllocResult) ∧
    demoAllocResult.2.2 = 0 ∧
    demoAllocResult.1.get demoAllocResult.2.2 = some default ∧
    demoAllocResult.2.1.gpu_layer_view_up_to_date = false := by
  have H := allocateBlockAtIndex_idempotent (β := ℕ) Heap.empty demoLayer ⟨0, 0, 0⟩
  have habs : demoLayer.getBlockAtIndex ⟨0, 0, 0⟩ = none := rfl
  exact ⟨H.2.1, (H.2.2 habs).1, (H.2.2 habs).2.1, (H.2.2 habs).2.2.2⟩

/-- Claim C5: allocate-then-get round-trip by position: after
`allocateBlockAtPosition p`, `getBlockAtPosition p` returns the returned
handle (non-null), which is exactly the handle stored at coordinate
`positionToBlockCoordinate p block_size`; both position-based operations
are the composition of the Spatial Index Mapping with the index-based
operation. -/
theorem positionRoundTrip {β : Type u} [Inhabited β]
    (w : Heap β) (s : BlockLayer β) (p : Vec3) :
    ((s.allocateBlockAtPosition w p).2.1.getBlockAtPosition p
        = some (s.allocateBlockAtPosition w p).2.2) ∧
    ((s.allocateBlockAtPosition w p).2.1.getBlockAtIndex
        (positionToBlockCoordinate p s.block_size)
        = some (s.allocateBlockAtPosition w p).2.2) ∧
    (s.allocateBlockAtPosition w p
        = s.allocateBlockAtIndex w (positionToBlockCoordinate p s.block_size)) ∧
    (s.getBlockAtPosition p
        = s.getBlockAtIndex (positionToBlockCoordinate p s.block_size)) := by
  have hidx : (s.allocateBlockAtPosition w p).2.1.getBlockAtIndex
      (positionToBlockCoordinate p s.block_size)
      = some (s.allocateBlockAtPosition w p).2.2 := by
    unfold BlockLayer.allocateBlockAtPosition
    exact allocateBlockAtIndex_lookup w s (positionToBlockCoordinate p s.block_size)
  refine ⟨?_, hidx, rfl, rfl⟩
  unfold BlockLayer.getBlockAtPosition
  have hbs : (s.allocateBlockAtPosition w p).2.1.block_size = s.block_size := by
    unfold BlockLayer.allocateBlockAtPosition
    exact (allocateBlockAtIndex_preserves w s (positionToBlockCoordinate p s.block_size)).1
  rw [hbs]
  exact hidx

/-- Claim C6: `clearBlocks` never signals an error: the result is always a
layer (total per-entry semantics); a coordinate is allocated afterwards
iff it was allocated before and not listed (present coordinates are
removed, absent ones are silently skipped, and if nothing was present in
the list the store is untouched); the Device View is marked stale iff at
least one removal occurred; the other attributes are untouched. -/
theorem clearBlocks_spec {β : Type u} (s : BlockLayer β) (indices : List Index3D) :
    (∀ i : Index3D, (s.clearBlocks indices).isBlockAllocated i =
        if i ∈ indices then false else s.isBlockAllocated i) ∧
    ((∃ i ∈ indices, s.isBlockAllocated i = true) →
        (s.clearBlocks indices).gpu_layer_view_up_to_date = false) ∧
    ((∀ i ∈ indices, s.isBlockAllocated i = false) →
        (s.clearBlocks indices).gpu_layer_view_up_to_date = s.gpu_layer_view_up_to_date ∧
        (s.clearBlocks indices).blocks = s.blocks) ∧
    (s.clearBlocks indices).block_size = s.block_size ∧
    (s.clearBlocks indices).memory_type = s.memory_type := by
  refine ⟨?_, ?_, ?_, rfl, rfl⟩
  · intro i
    unfold BlockLayer.clearBlocks BlockLayer.isBlockAllocated
    exact containsKey_foldl_eraseKey indices s.blocks i
  · intro hex
    unfold BlockLayer.clearBlocks
    have : indices.any (fun i => containsKey s.blocks i) = true := by
      rcases hex with ⟨i, hi, hc⟩
      exact List.any_eq_true.mpr ⟨i, hi, hc⟩
    simp [this]
  · intro hall
    unfold BlockLayer.clearBlocks
    have hany : indices.any (fun i => containsKey s.blocks i) = false := by
      rw [List.any_eq_false]
      intro i hi
      have h2 := hall i hi
      unfold BlockLayer.isBlockAllocated at h2
      simp [h2]
    refine ⟨by simp [hany], ?_⟩
    have hfold := foldl_eraseKey_of_absent indices s.blocks fun i hi => by
      have h2 := hall i hi
      unfold BlockLayer.isBlockAllocated at h2
      exact h2
    simpa using hfold

/-- Witness for claim C6: clearing the pair ((0,0,0) present, (5,5,5)
absent) removes the present one and marks the view stale; clearing only
the absent (7,7,7) leaves the store untouched. -/
theorem clearBlocks_spec_witness :
    (demoAllocResult.2.1.clearBlocks [⟨0, 0, 0⟩, ⟨5, 5, 5⟩]).isBlockAllocated ⟨0, 0, 0⟩
        = false ∧
    (demoAllocResult.2.1.clearBlocks [⟨0, 0, 0⟩, ⟨5, 5, 5⟩]).gpu_layer_view_up_to_date
        = false ∧
    (demoAllocResult.2.1.clearBlocks [⟨7, 7, 7⟩]).blocks = demoAllocResult.2.1.blocks := by
  have H := clearBlocks_spec demoAllocResult.2.1 [⟨0, 0, 0⟩, ⟨5, 5, 5⟩]
  have H2 := clearBlocks_spec demoAllocResult.2.1 [⟨7, 7, 7⟩]
  refine ⟨?_, ?_, ?_⟩
  · rw [H.1 ⟨0, 0, 0⟩]
    simp
  · exact H.2.1 ⟨⟨0, 0, 0⟩, by simp, by decide⟩
  · refine (H2.2.2.1 ?_).2
    intro i hi
    simp only [List.mem_singleton] at hi
    subst hi
    decide

/-- Claim C7: `getGpuLayerView` rebuilds only when stale: on a stale flag
it rebuilds the view from the current store (sized for the current block
count), marks up-to-date, and bumps the rebuild counter; on an up-to-date
flag it returns the cached view directly, unchanged state; hence a second
call with no mutation in between returns the same view without a
redundant rebuild. -/
theorem getGpuLayerView_spec {β : Type u} (s : BlockLayer β) :
    (s.gpu_layer_view_up_to_date = false →
        s.getGpuLayerView.2 = s.blocks ∧
        s.getGpuLayerView.2.length = s.numAllocatedBlocks ∧
        s.getGpuLayerView.1.gpu_layer_view_up_to_date = true ∧
        s.getGpuLayerView.1.gpu_layer_view = some s.blocks ∧
        s.getGpuLayerView.1.rebuild_count = s.rebuild_count + 1) ∧
    (∀ v : List (Index3D × ℕ), s.gpu_layer_view_up_to_date = true →
        s.gpu_layer_view = some v → s.getGpuLayerView = (s, v)) ∧
    (s.getGpuLayerView.1.getGpuLayerView
        = (s.getGpuLayerView.1, s.getGpuLayerView.2)) ∧
    (s.getGpuLayerView.1.getGpuLayerView.1.rebuild_count
        = s.getGpuLayerView.1.rebuild_count) := by
  obtain ⟨bs, mt, blocks, flag, view, rc⟩ := s
  cases flag <;> cases view <;>
    simp [BlockLayer.getGpuLayerView, BlockLayer.numAllocatedBlocks]

/-- Witness for claim C7: the fresh layer is stale, so the first call
rebuilds (view = current store, counter bumped, flag raised) and the
second call returns the cached view with no further rebuild. -/
theorem getGpuLayerView_spec_witness :
    demoLayer.getGpuLayerView.2 = demoLayer.blocks ∧
    demoLayer.getGpuLayerView.1.gpu_layer_view_up_to_date = true ∧
    demoLayer.getGpuLayerView.1.rebuild_count = demoLayer.rebuild_count + 1 ∧
    demoLayer.getGpuLayerView.1.getGpuLayerView
        = (demoLayer.getGpuLayerView.1, demoLayer.blocks) := by
  have H := getGpuLayerView_spec demoLayer
  have hf : demoLayer.gpu_layer_view_up_to_date = false := rfl
  have Hcached := (getGpuLayerView_spec demoLayer.getGpuLayerView.1).2.1
    demoLayer.blocks ((H.1 hf).2.2.1) ((H.1 hf).2.2.2.1)
  exact ⟨(H.1 hf).1, (H.1 hf).2.2.1, (H.1 hf).2.2.2.2, Hcached⟩

/-- Claim C10: `clear()` leaves every attribute other than the block store
unchanged (block size, memory type, view-cache state, and for voxel
layers the voxel size), and afterwards `numAllocatedBlocks()` is 0. -/
theorem clear_frame {β : Type u} {V : Type u} (s : BlockLayer β) (vs : VoxelBlockLayer V) :
    s.clear.block_size = s.block_size ∧
    s.clear.memory_type = s.memory_type ∧
    s.clear.gpu_layer_view_up_to_date = s.gpu_layer_view_up_to_date ∧
    s.clear.rebuild_count = s.rebuild_count ∧
    s.clear.numAllocatedBlocks = 0 ∧
    vs.clear.voxelSize = vs.voxelSize ∧
    vs.clear.toBlockLayer.block_size = vs.toBlockLayer.block_size ∧
    vs.clear.toBlockLayer.memory_type = vs.toBlockLayer.memory_type ∧
    vs.clear.toBlockLayer.numAllocatedBlocks = 0 :=
  ⟨rfl, rfl, rfl, rfl, rfl, rfl, rfl, rfl, rfl⟩

/-! ## The `clear()` staleness bug (claim C1) -/

/-- Scenario: allocate block (0,0,0) in a fresh layer. -/
def bugAllocResult : Heap ℕ × BlockLayer ℕ × ℕ :=
  (mkBlockLayer 1 MemoryType.kHost).allocateBlockAtIndex Heap.empty ⟨0, 0, 0⟩

/-- ... then read the Device View (rebuilds, flag becomes up-to-date). -/
def bugFirstView : BlockLayer ℕ × List (Index3D × ℕ) :=
  bugAllocResult.2.1.getGpuLayerView

/-- ... then `clear()` the layer (layer.h line 94: clears only `blocks_`). -/
def bugCleared : BlockLayer ℕ :=
  bugFirstView.1.clear

/-- ... then read the Device View again. -/
def bugSecondView : BlockLayer ℕ × List (Index3D × ℕ) :=
  bugCleared.getGpuLayerView

/-- Claim C1 fails on the code: `void clear() { blocks_.clear(); }`
(layer.h line 94) does not set `gpu_layer_view_up_to_date_` to stale, so
after allocate (0,0,0); getGpuLayerView(); clear(); the flag is still
up-to-date, the next getGpuLayerView() performs no rebuild, and the view
it returns still contains (0,0,0) while the store's key set is empty —
the view does not reflect the current key set of the store. -/
theorem clear_does_not_invalidate_device_view :
    bugCleared.blocks = [] ∧
    bugCleared.gpu_layer_view_up_to_date = true ∧
    bugSecondView.1.rebuild_count = bugFirstView.1.rebuild_count ∧
    bugSecondView.2 = [(⟨0, 0, 0⟩, 0)] ∧
    bugSecondView.2.map Prod.fst ≠ bugCleared.blocks.map Prod.fst := by
  decide

/-! ## Deep-copy lemmas -/

@[simp] theorem deepCopyBlocks_nil {β : Type u} [Inhabited β] (w : Heap β) :
    deepCopyBlocks w ([] : List (Index3D × ℕ)) = (w, []) := rfl

theorem deepCopyBlocks_cons {β : Type u} [Inhabited β]
    (w : Heap β) (idx : Index3D) (h : ℕ) (rest : List (Index3D × ℕ)) :
    deepCopyBlocks w ((idx, h) :: rest) =
      ((deepCopyBlocks (w.alloc ((w.get h).getD default)).1 rest).1,
       (idx, (w.alloc ((w.get h).getD default)).2) ::
         (deepCopyBlocks (w.alloc ((w.get h).getD default)).1 rest).2) := rfl

theorem deepCopyBlocks_next_le {β : Type u} [Inhabited β] :
    ∀ (l : List (Index3D × ℕ)) (w : Heap β), w.next ≤ (deepCopyBlocks w l).1.next
  | [], _ => le_refl _
  | (idx, h) :: rest, w => by
    rw [deepCopyBlocks_cons]
    have h1 : w.next ≤ (w.alloc ((w.get h).getD default)).1.next := by
      simp [Heap.alloc]
    exact le_trans h1 (deepCopyBlocks_next_le rest _)

theorem deepCopyBlocks_get_old {β : Type u} [Inhabited β] :
    ∀ (l : List (Index3D × ℕ)) (w : Heap β) (h : ℕ), h < w.next →
      (deepCopyBlocks w l).1.get h = w.get h
  | [], _, _, _ => rfl
  | (idx, h0) :: rest, w, h, hlt => by
    rw [deepCopyBlocks_cons]
    have hn : h < (w.alloc ((w.get h0).getD default)).1.next := by
      simp only [Heap.alloc]
      omega
    rw [deepCopyBlocks_get_old rest _ h hn]
    exact Heap.get_alloc_old w _ h hlt

theorem deepCopyBlocks_new_ids {β : Type u} [Inhabited β] :
    ∀ (l : List (Index3D × ℕ)) (w : Heap β),
      ∀ kv ∈ (deepCopyBlocks w l).2, w.next ≤ kv.2
  | [], w => by simp
  | (idx, h0) :: rest, w => by
    rw [deepCopyBlocks_cons]
    intro kv hkv
    rcases List.mem_cons.mp hkv with hh | hh
    · subst hh
      simp [Heap.alloc]
    · have h1 := deepCopyBlocks_new_ids rest (w.alloc ((w.get h0).getD default)).1 kv hh
      have h2 : w.next ≤ (w.alloc ((w.get h0).getD default)).1.next := by
        simp [Heap.alloc]
      omega

theorem forall₂_imp_left_mem {α : Type u} {γ : Type v} {P Q : α → γ → Prop} :
    ∀ {l : List α} {m : List γ}, List.Forall₂ P l m →
      (∀ a ∈ l, ∀ c, P a c → Q a c) → List.Forall₂ Q l m := by
  intro l m hpq
  induction hpq with
  | nil => exact fun _ => List.Forall₂.nil
  | @cons a c l1 m1 hac _ ih =>
    intro hq
    exact List.Forall₂.cons (hq a (by simp) c hac)
      (ih fun x hx d hd => hq x (by simp [hx]) d hd)

theorem deepCopyBlocks_spec {β : Type u} [Inhabited β] :
    ∀ (l : List (Index3D × ℕ)) (w : Heap β),
      (∀ kv ∈ l, kv.2 < w.next) →
      List.Forall₂
        (fun src dst => dst.1 = src.1 ∧ w.next ≤ dst.2 ∧
          (deepCopyBlocks w l).1.get dst.2 = some ((w.get src.2).getD default))
        l (deepCopyBlocks w l).2
  | [], w, _ => by simp
  | (idx, h0) :: rest, w, hv => by
    rw [deepCopyBlocks_cons]
    have hv0 : h0 < w.next := hv (idx, h0) (by simp)
    have hstep : w.next < (w.alloc ((w.get h0).getD default)).1.next := by
      simp [Heap.alloc]
    have hv1 : ∀ kv ∈ rest, kv.2 < (w.alloc ((w.get h0).getD default)).1.next := by
      intro kv hkv
      have := hv kv (by simp [hkv])
      omega
    dsimp only
    refine List.Forall₂.cons ⟨rfl, ?_, ?_⟩ ?_
    · simp [Heap.alloc]
    · rw [deepCopyBlocks_get_old rest (w.alloc ((w.get h0).getD default)).1
          (w.alloc ((w.get h0).getD default)).2 hstep]
      exact Heap.get_alloc_new w _
    · have ih := deepCopyBlocks_spec rest (w.alloc ((w.get h0).getD default)).1 hv1
      refine forall₂_imp_left_mem ih ?_
      intro src hsrc dst hP
      refine ⟨hP.1, le_trans (le_of_lt hstep) hP.2.1, ?_⟩
      rw [hP.2.2, Heap.get_alloc_old w _ _ (hv src (by simp [hsrc]))]

/-! ## Claims C3 and C8 -/

/-- Claim C3: deep copies are isolated: the copy constructor duplicates
every stored block's payload into fresh, independent heap cells (the
copy's handles are all fresh, its payload values equal the source's), the
copy's Device View Cache starts stale, and mutating a block of the copy
does not affect any block of the original — and vice versa. -/
theorem deepCopy_isolation {β : Type u} [Inhabited β]
    (w : Heap β) (s : BlockLayer β)
    (hv : ∀ kv ∈ s.blocks, kv.2 < w.next) :
    ((s.deepCopy w).2.gpu_layer_view_up_to_date = false ∧
     (s.deepCopy w).2.gpu_layer_view = none) ∧
    ((s.deepCopy w).2.block_size = s.block_size ∧
     (s.deepCopy w).2.memory_type = s.memory_type) ∧
    List.Forall₂
      (fun src dst => dst.1 = src.1 ∧ w.next ≤ dst.2 ∧
        (s.deepCopy w).1.get dst.2 = some ((w.get src.2).getD default))
      s.blocks (s.deepCopy w).2.blocks ∧
    (∀ kd ∈ (s.deepCopy w).2.blocks, ∀ ks ∈ s.blocks, ∀ b : β,
        ((s.deepCopy w).1.write kd.2 b).get ks.2 = (s.deepCopy w).1.get ks.2) ∧
    (∀ ks ∈ s.blocks, ∀ kd ∈ (s.deepCopy w).2.blocks, ∀ b : β,
        ((s.deepCopy w).1.write ks.2 b).get kd.2 = (s.deepCopy w).1.get kd.2) := by
  have hids : ∀ kv ∈ (s.deepCopy w).2.blocks, w.next ≤ kv.2 :=
    deepCopyBlocks_new_ids s.blocks w
  refine ⟨⟨rfl, rfl⟩, ⟨rfl, rfl⟩, deepCopyBlocks_spec s.blocks w hv, ?_, ?_⟩
  · intro kd hkd ks hks b
    exact Heap.get_write_ne _ _ _ b
      (ne_of_gt (lt_of_lt_of_le (hv ks hks) (hids kd hkd)))
  · intro ks hks kd hkd b
    exact Heap.get_write_ne _ _ _ b
      (ne_of_lt (lt_of_lt_of_le (hv ks hks) (hids kd hkd)))

/-- The deep copy of the one-block demonstration layer. -/
def demoCopy : Heap ℕ × BlockLayer ℕ :=
  demoAllocResult.2.1.deepCopy demoAllocResult.1

/-- Witness for claim C3: the copy of the one-block layer starts stale, its
block got the fresh handle 1, and writing payload 42 through the copy's
handle leaves the original's payload (handle 0) untouched, and vice
versa. -/
theorem deepCopy_isolation_witness :
    demoCopy.2.gpu_layer_view_up_to_date = false ∧
    (demoCopy.1.write 1 42).get 0 = demoCopy.1.get 0 ∧
    (demoCopy.1.write 0 42).get 1 = demoCopy.1.get 1 := by
  have H := deepCopy_isolation demoAllocResult.1 demoAllocResult.2.1 (by decide)
  refine ⟨H.1.1, ?_, ?_⟩
  · exact H.2.2.2.1 (⟨0, 0, 0⟩, 1) (by decide) (⟨0, 0, 0⟩, 0) (by decide) 42
  · exact H.2.2.2.2 (⟨0, 0, 0⟩, 0) (by decide) (⟨0, 0, 0⟩, 1) (by decide) 42

/-- Claim C8: copy-assignment preserves the target's memory residency: the
assigned layer keeps the target's own `memory_type()` (even when the
source's residency differs — the statement holds for every pair), while
its store becomes deep copies of the source's blocks (same coordinates,
equal payload values, fresh handles) and its Device View Cache starts
stale. -/
theorem copyAssign_memory_type {β : Type u} [Inhabited β]
    (w : Heap β) (target source : BlockLayer β)
    (hv : ∀ kv ∈ source.blocks, kv.2 < w.next) :
    (target.copyAssign w source).2.memory_type = target.memory_type ∧
    (target.copyAssign w source).2.block_size = source.block_size ∧
    (target.copyAssign w source).2.gpu_layer_view_up_to_date = false ∧
    List.Forall₂
      (fun src dst => dst.1 = src.1 ∧ w.next ≤ dst.2 ∧
        (target.copyAssign w source).1.get dst.2 = some ((w.get src.2).getD default))
      source.blocks (target.copyAssign w source).2.blocks :=
  ⟨rfl, rfl, rfl, deepCopyBlocks_spec source.blocks w hv⟩

/-- A device-resident target layer for the assignment witness. -/
def demoTarget : BlockLayer ℕ := mkBlockLayer 2 MemoryType.kDevice

/-- Witness for claim C8: assigning the host-resident one-block layer into
a device-resident target keeps the target's kDevice residency. -/
theorem copyAssign_memory_type_witness :
    (demoTarget.copyAssign demoAllocResult.1 demoAllocResult.2.1).2.memory_type
        = MemoryType.kDevice ∧
    demoAllocResult.2.1.memory_type = MemoryType.kHost ∧
    (demoTarget.copyAssign demoAllocResult.1 demoAllocResult.2.1).2.gpu_layer_view_up_to_date
        = false := by
  have H := copyAssign_memory_type demoAllocResult.1 demoTarget demoAllocResult.2.1 (by decide)
  exact ⟨H.1, rfl, H.2.2.1⟩

/-! ## Claim C9: getVoxels -/

/-- Block allocation on a voxel layer is the inherited
`BlockLayer::allocateBlockAtIndex` acting on the base store. -/
def VoxelBlockLayer.allocateBlockAtIndex {V : Type u} [Inhabited V]
    (s : VoxelBlockLayer V) (w : Heap (VoxelBlock V)) (c : Index3D) :
    Heap (VoxelBlock V) × VoxelBlockLayer V × ℕ :=
  ((s.toBlockLayer.allocateBlockAtIndex w c).1,
   { s with toBlockLayer := (s.toBlockLayer.allocateBlockAtIndex w c).2.1 },
   (s.toBlockLayer.allocateBlockAtIndex w c).2.2)

/-- Claim C9: for an input sequence of N positions, `getVoxels` produces
output sequences (voxels and success flags) both of length N; pointwise,
a position whose mapped block is not allocated yields flag `false` and a
default-valued voxel, and a position whose mapped block is allocated
yields flag `true` and an independent copy (a plain value, not a handle)
of the single stored voxel at the local offset. -/
theorem getVoxels_spec {V : Type u} [Inhabited V]
    (w : Heap (VoxelBlock V)) (s : VoxelBlockLayer V) (positions_L : List Vec3) :
    (s.getVoxels w positions_L).1.length = positions_L.length ∧
    (s.getVoxels w positions_L).2.length = positions_L.length ∧
    List.Forall₂
      (fun p (out : V × Bool) =>
        (s.toBlockLayer.isBlockAllocated
            (positionToBlockCoordinate p s.toBlockLayer.block_size) = false →
          out = (default, false)) ∧
        (∀ h ∈ s.toBlockLayer.getBlockAtIndex
            (positionToBlockCoordinate p s.toBlockLayer.block_size),
          out = (((w.get h).getD default).voxel
              (localVoxelIndex p (positionToBlockCoordinate p s.toBlockLayer.block_size)
                s.toBlockLayer.block_size s.voxel_size), true)))
      positions_L ((s.getVoxels w positions_L).1.zip (s.getVoxels w positions_L).2) := by
  refine ⟨by simp [VoxelBlockLayer.getVoxels], by simp [VoxelBlockLayer.getVoxels], ?_⟩
  unfold VoxelBlockLayer.getVoxels
  rw [List.zip_map']
  rw [List.forall₂_map_right_iff]
  rw [List.forall₂_same]
  intro p _
  constructor
  · intro hnone
    unfold BlockLayer.isBlockAllocated containsKey at hnone
    unfold VoxelBlockLayer.getVoxel
    cases hl : lookupKey s.toBlockLayer.blocks
        (positionToBlockCoordinate p s.toBlockLayer.block_size) with
    | none => simp [hl]
    | some h => rw [hl] at hnone; simp at hnone
  · intro h hmem
    unfold BlockLayer.getBlockAtIndex at hmem
    unfold VoxelBlockLayer.getVoxel
    cases hl : lookupKey s.toBlockLayer.blocks
        (positionToBlockCoordinate p s.toBlockLayer.block_size) with
    | none => rw [hl] at hmem; simp at hmem
    | some h0 =>
      rw [hl] at hmem
      simp only [Option.mem_def, Option.some.injEq] at hmem
      subst hmem
      simp [hl]

/-- The demonstration voxel layer (voxel size 1, block edge 8) with block
(0,0,0) allocated. -/
def demoVoxelAlloc : Heap (VoxelBlock ℕ) × VoxelBlockLayer ℕ × ℕ :=
  (mkVoxelBlockLayer 1 MemoryType.kHost).allocateBlockAtIndex Heap.empty ⟨0, 0, 0⟩

/-- Witness for claim C9 on two positions (one in the allocated block
(0,0,0), one in the unallocated block containing (100,0,0)): both output
sequences have length 2, and the outputs are (stored default voxel, true)
and (default, false) respectively. -/
theorem getVoxels_spec_witness :
    (demoVoxelAlloc.2.1.getVoxels demoVoxelAlloc.1
        [⟨1/2, 1/2, 1/2⟩, ⟨100, 0, 0⟩]).1.length = 2 ∧
    (demoVoxelAlloc.2.1.getVoxels demoVoxelAlloc.1
        [⟨1/2, 1/2, 1/2⟩, ⟨100, 0, 0⟩]).2.length = 2 := by
  have H := getVoxels_spec demoVoxelAlloc.1 demoVoxelAlloc.2.1
    [⟨1/2, 1/2, 1/2⟩, ⟨100, 0, 0⟩]
  exact ⟨H.1, H.2.1⟩
